import Mathlib

/-!
Verification of the keypoint head of `detectron2/modeling/roi_heads/keypoint_head.py`
(AIVIS-inc/SegPC2021 fork of detectron2-ResNeSt).

The file shallowly embeds the module's functions:
  * `keypoint_rcnn_loss` (training loss stage), including the module-level
    `_TOTAL_SKIPPED` counter and the event-storage report, modelled by explicit
    state passing (`LossState`);
  * `keypoint_rcnn_inference` (inference decode stage);
  * `Max`, `SpatialAttention` (spatial attention gate) and
    `KRCNNConvDeconvUpsampleHead` (head network), modelled at the level of
    tensor shapes, since every statement proved about them concerns shapes and
    construction-time parameters;
  * `BaseKeypointRCNNHead.forward` (controller), training branch.

External collaborators that are not part of the repository (torch numeric
primitives, `Keypoints.to_heatmap`, `heatmaps_to_keypoints`, the event storage)
enter as function parameters or as contract-level models; each such definition
says so in its doc comment.  Numeric values are rationals; fallible steps
return `Except`.
-/

/-- One ground-truth instance annotation: its keypoint set (entries `(x, y, visibility)`)
and its proposal / reference box `(x0, y0, x1, y1)`. -/
structure InstanceAnn where
  keypoints : List (ℚ × ℚ × ℚ)
  box : ℚ × ℚ × ℚ × ℚ

/-- Modelled from the spec: the external per-instance keypoint encoder contract
(spec section 6, `encode(keypoints, reference_box, side_len) -> (bin_indices, validity)`).
Given one instance annotation and the heatmap side length it returns the K flattened
bin indices and the K validity flags for that instance.  The algorithm itself lives in
`detectron2.structures` (not under `src/`), so it is kept abstract. -/
abbrev Encoder := InstanceAnn → ℕ → List ℕ × List Bool

/-- Modelled from the spec: `Keypoints.to_heatmap(boxes, side_len)` (external,
`detectron2.structures`) applied to one image's instances.  Per the spec's contract the
encoding of each instance uses that instance's own reference box, so the vectorised
per-image call is the per-instance encoder mapped over the image's instances; it returns
the per-instance rows of bin indices and of validity flags (both `n × K`). -/
def to_heatmap (enc : Encoder) (instances_per_image : List InstanceAnn) (side_len : ℕ) :
    List (List ℕ) × List (List Bool) :=
  (instances_per_image.map fun a => (enc a side_len).1,
   instances_per_image.map fun a => (enc a side_len).2)

/-- The mutable state touched by `keypoint_rcnn_loss`: the module-level
`_TOTAL_SKIPPED` counter and the event storage (`storage.put_scalar`), modelled as the
list of `(name, value)` reports made so far. -/
structure LossState where
  totalSkipped : ℕ
  events : List (String × ℕ)
deriving DecidableEq

/-- Heatmap logits as a function of `(instance, keypoint, row, col)`; the tensor shape
`(N, K, S, S)` is carried separately. -/
abbrev Logits4 := ℕ → ℕ → ℕ → ℕ → ℚ

/-- `pred_keypoint_logits.sum()`: the sum of all `N * K * S * S` entries. -/
def logitsSum (N K S : ℕ) (f : Logits4) : ℚ :=
  (Finset.range N).sum fun r =>
    (Finset.range K).sum fun k =>
      (Finset.range S).sum fun i =>
        (Finset.range S).sum fun j => f r k i j

/-- `torch.nonzero(v).squeeze(1)` for a 1-D boolean tensor: the indices whose entry is
true, in increasing order. -/
def nonzeroIdx (l : List Bool) : List ℕ :=
  (List.range l.length).filter fun i => l.getD i false

/-- Modelled from the spec: the external per-row cross-entropy primitive
(`F.cross_entropy` on a single row of `S·S` logits and its target bin index).  Torch is
not part of the repository, so the per-row function is abstract; the `reduction="sum"`
of the call site is modelled explicitly at the call site. -/
abbrev CrossEntropyFn := (ℕ → ℚ) → ℕ → ℚ

/-- The per-image lists kept by the loop of `keypoint_rcnn_loss`
(`for instances_per_image in instances: if len(instances_per_image) == 0: continue`). -/
def kptKept (instances : List (List InstanceAnn)) : List (List InstanceAnn) :=
  instances.filter fun instances_per_image => instances_per_image.length ≠ 0

/-- The python list `heatmaps` after the loop: for each kept image,
`heatmaps_per_image.view(-1)` (the row-major flattening of the `n × K` bin indices). -/
def kptHeatmaps (enc : Encoder) (S : ℕ) (instances : List (List InstanceAnn)) :
    List (List ℕ) :=
  (kptKept instances).map fun instances_per_image =>
    ((to_heatmap enc instances_per_image S).1).flatten

/-- The python list `valid` after the loop: for each kept image,
`valid_per_image.view(-1)`. -/
def kptValidFlags (enc : Encoder) (S : ℕ) (instances : List (List InstanceAnn)) :
    List (List Bool) :=
  (kptKept instances).map fun instances_per_image =>
    ((to_heatmap enc instances_per_image S).2).flatten

/-- `keypoint_targets = cat(heatmaps, dim=0)`. -/
def kptTargets (enc : Encoder) (S : ℕ) (instances : List (List InstanceAnn)) : List ℕ :=
  (kptHeatmaps enc S instances).flatten

/-- `valid = torch.nonzero(cat(valid, dim=0)).squeeze(1)`. -/
def kptValid (enc : Encoder) (S : ℕ) (instances : List (List InstanceAnn)) : List ℕ :=
  nonzeroIdx (kptValidFlags enc S instances).flatten

/-- The degenerate-batch test of `keypoint_rcnn_loss`
(`len(heatmaps) == 0 or valid.numel() == 0`). -/
def lossDegenerate (enc : Encoder) (S : ℕ) (instances : List (List InstanceAnn)) : Bool :=
  decide ((kptHeatmaps enc S instances).length = 0) ||
    decide ((kptValid enc S instances).length = 0)

/-- `keypoint_rcnn_loss(pred_keypoint_logits, instances, normalizer)` (lines 30-89 of
`keypoint_head.py`).  `N, K, S` are the logits' shape `(N, K, S, S)`; `instances` is the
list of per-image instance-annotation lists; `normalizer` is the optional explicit
normalizer (`None` ↦ `none`).  The state holds `_TOTAL_SKIPPED` and the event storage.
The function's local variables (`heatmaps`, `keypoint_targets`, `valid`) are the
definitions above.  Tensor indexing out of range raises in torch; that is the `.error`
branch, guarded by the explicit bound check (the source performs the same accesses
unguarded and lets torch raise).  The `view` calls are local rebindings, not
mutations: `view(-1)` appears in `kptHeatmaps` / `kptValidFlags`, and
`view(N * K, H * W)` appears as the index arithmetic of `rows`. -/
def keypoint_rcnn_loss (ce : CrossEntropyFn) (enc : Encoder)
    (N K S : ℕ) (pred_keypoint_logits : Logits4)
    (instances : List (List InstanceAnn)) (normalizer : Option ℚ)
    (st : LossState) : LossState × Except String ℚ :=
  -- keypoint_side_len = pred_keypoint_logits.shape[2] = S
  let heatmaps := kptHeatmaps enc S instances
  let keypoint_targets := kptTargets enc S instances
  let valid := kptValid enc S instances
  if heatmaps.length = 0 ∨ valid.length = 0 then
    -- _TOTAL_SKIPPED += 1; storage.put_scalar("kpts_num_skipped_batches", _TOTAL_SKIPPED)
    -- return pred_keypoint_logits.sum() * 0
    (⟨st.totalSkipped + 1,
      st.events ++ [("kpts_num_skipped_batches", st.totalSkipped + 1)]⟩,
     .ok (logitsSum N K S pred_keypoint_logits * 0))
  else if valid.all fun i => decide (i < N * K) && decide (i < keypoint_targets.length) then
    -- pred_keypoint_logits = pred_keypoint_logits.view(N * K, H * W); rows [valid]
    let rows := valid.map fun i => fun c =>
      pred_keypoint_logits (i / K) (i % K) (c / S) (c % S)
    let tgts := valid.map fun i => keypoint_targets.getD i 0
    -- F.cross_entropy(pred_keypoint_logits[valid], keypoint_targets[valid], reduction="sum")
    let keypoint_loss := ((rows.zip tgts).map fun rt => ce rt.1 rt.2).sum
    let norm : ℚ := match normalizer with
      | none => (valid.length : ℚ)
      | some n => n
    (st, .ok (keypoint_loss / norm))
  else
    (st, .error "index out of range")

/-- Spec-side (section 4.3, step 2): all per-instance-per-keypoint bin indices
concatenated into one flat sequence, over every instance of every image. -/
def allBins (enc : Encoder) (S : ℕ) (instances : List (List InstanceAnn)) : List ℕ :=
  (instances.flatten.map fun a => (enc a S).1).flatten

/-- Spec-side (section 4.3, step 2): all validity flags concatenated likewise. -/
def allFlags (enc : Encoder) (S : ℕ) (instances : List (List InstanceAnn)) : List Bool :=
  (instances.flatten.map fun a => (enc a S).2).flatten

/-- Spec-side: `valid` = the indices of true validity flags over the concatenated
sequence. -/
def specValid (enc : Encoder) (S : ℕ) (instances : List (List InstanceAnn)) : List ℕ :=
  nonzeroIdx (allFlags enc S instances)

/-- Spec-side (section 4.3, step 4): the pre-normalization loss — the sum, over exactly
the rows of the reshaped `(R·K, S·S)` logits whose index is in `valid`, of the per-row
cross-entropy against that row's target bin index; summed, not averaged. -/
def spec_preNormLoss (ce : CrossEntropyFn) (enc : Encoder) (K S : ℕ)
    (logits : Logits4) (instances : List (List InstanceAnn)) : ℚ :=
  ((specValid enc S instances).map fun i =>
    ce (fun c => logits (i / K) (i % K) (c / S) (c % S))
      ((allBins enc S instances).getD i 0)).sum

/-- Configuration consumed by `BaseKeypointRCNNHead.__init__` (lines 167-176):
`LOSS_WEIGHT`, `NORMALIZE_LOSS_BY_VISIBLE_KEYPOINTS`, `NUM_KEYPOINTS`,
`BATCH_SIZE_PER_IMAGE` and `POSITIVE_FRACTION`. -/
structure ControllerCfg where
  loss_weight : ℚ
  normalize_by_visible_keypoints : Bool
  num_keypoints : ℕ
  batch_size_per_image : ℕ
  positive_sample_fraction : ℚ

/-- `self.normalizer_per_img = self.num_keypoints * batch_size_per_image *
positive_sample_fraction` (lines 177-179). -/
def normalizer_per_img (cfg : ControllerCfg) : ℚ :=
  (cfg.num_keypoints : ℚ) * (cfg.batch_size_per_image : ℚ) * cfg.positive_sample_fraction

/-- The training branch of `BaseKeypointRCNNHead.forward` (lines 181-204).  The abstract
`self.layers` output `x` is taken as input (`BaseKeypointRCNNHead.layers` itself raises
NotImplementedError; the concrete subclass supplies it).  Returns the state after the
loss call and the loss dict, modelled as the association list
`[("loss_keypoint", loss * loss_weight)]`. -/
def BaseKeypointRCNNHead.forward_training (ce : CrossEntropyFn) (enc : Encoder)
    (cfg : ControllerCfg) (N K S : ℕ) (x : Logits4)
    (instances : List (List InstanceAnn)) (st : LossState) :
    LossState × Except String (List (String × ℚ)) :=
  let num_images := instances.length
  let normalizer : Option ℚ :=
    if cfg.normalize_by_visible_keypoints then none
    else some ((num_images : ℚ) * normalizer_per_img cfg)
  let r := keypoint_rcnn_loss ce enc N K S x instances normalizer st
  (r.1, r.2.map fun v => [("loss_keypoint", v * cfg.loss_weight)])

/-- One invocation's inputs to the training loss stage, used to state properties of
sequences of invocations against the process-wide state. -/
structure KptLossBatch where
  N : ℕ
  K : ℕ
  S : ℕ
  logits : Logits4
  instances : List (List InstanceAnn)
  normalizer : Option ℚ

/-- Run `keypoint_rcnn_loss` on a sequence of batches, threading the process-wide
state (the `_TOTAL_SKIPPED` counter and event storage) through the invocations. -/
def runLossBatches (ce : CrossEntropyFn) (enc : Encoder) :
    List KptLossBatch → LossState → LossState
  | [], st => st
  | b :: bs, st =>
      runLossBatches ce enc bs
        (keypoint_rcnn_loss ce enc b.N b.K b.S b.logits b.instances b.normalizer st).1

/-- The reports a run of `d` degenerate batches appends when the counter starts at
`base`: the i-th degenerate batch reports the counter value `base + i + 1` under the
fixed diagnostic name. -/
def skipTrace (base d : ℕ) : List (String × ℕ) :=
  (List.range d).map fun i => ("kpts_num_skipped_batches", base + i + 1)

/-- Everything `keypoint_rcnn_loss` can read or write, bundled to state frame
properties: the logits tensor and its shape, the per-image annotations (read-only in
the code — `.view` is a local rebinding) and the mutable `LossState`. -/
structure LossWorld where
  N : ℕ
  K : ℕ
  S : ℕ
  logits : Logits4
  instances : List (List InstanceAnn)
  state : LossState

/-- `keypoint_rcnn_loss` as a transformer of the whole `LossWorld`: the code never
assigns into the logits tensor or the instance annotations, so the world's only
updated field is the mutable state. -/
def keypoint_rcnn_loss_world (ce : CrossEntropyFn) (enc : Encoder)
    (normalizer : Option ℚ) (w : LossWorld) : LossWorld × Except String ℚ :=
  let r := keypoint_rcnn_loss ce enc w.N w.K w.S w.logits w.instances normalizer w.state
  ({ w with state := r.1 }, r.2)

/-- One per-image prediction collection (`Instances`) as the inference stage sees it:
its predicted boxes, previously attached fields (opaque here, preserved by the stage)
and the `pred_keypoints` field the stage attaches.  `len(instances)` is the number of
predicted boxes. -/
structure PredInstancesI where
  pred_boxes : List (ℚ × ℚ × ℚ × ℚ)
  other_fields : List (String × ℚ)
  pred_keypoints : Option (List (List (ℚ × ℚ × ℚ)))

/-- Modelled from the spec: `heatmaps_to_keypoints(logits, boxes)` (external,
`detectron2.structures`) — given the logits and the matching `(R, 4)` boxes it produces,
per instance and keypoint, an `(x, y, intermediate, score)` quadruple (spec section 6,
`decode`).  Kept abstract; the `.detach()` calls at the call site concern gradient
tracking only. -/
abbrev KptDecoder := Logits4 → List (ℚ × ℚ × ℚ × ℚ) → List (List (ℚ × ℚ × ℚ × ℚ))

/-- `tensor.split(sizes, dim=0)`: successive chunks of the given sizes. -/
def splitSizes {α : Type} (l : List α) : List ℕ → List (List α)
  | [] => []
  | n :: ns => l.take n :: splitSizes (l.drop n) ns

/-- The column selection `keypoint_results[:, :, [0, 1, 3]]`: keep `(x, y, score)` of
each decoded `(x, y, intermediate, score)` quadruple. -/
def selectXYScore (results : List (List (ℚ × ℚ × ℚ × ℚ))) : List (List (ℚ × ℚ × ℚ)) :=
  results.map fun row => row.map fun t => (t.1, t.2.1, t.2.2.2)

/-- `keypoint_rcnn_inference(pred_keypoint_logits, pred_instances)` (lines 92-120).
Selects columns `[0, 1, 3]` of the decoded `(x, y, intermediate, score)` output, splits
by the per-image instance counts and attaches each chunk as the `pred_keypoints` field.
The in-place attachment loop is modelled by returning the updated collections. -/
def keypoint_rcnn_inference (dec : KptDecoder) (pred_keypoint_logits : Logits4)
    (pred_instances : List PredInstancesI) : List PredInstancesI :=
  let bboxes_flat := (pred_instances.map fun b => b.pred_boxes).flatten
  let keypoint_results0 := dec pred_keypoint_logits bboxes_flat
  let num_instances_per_image := pred_instances.map fun i => i.pred_boxes.length
  -- keypoint_results[:, :, [0, 1, 3]].split(num_instances_per_image, dim=0)
  let keypoint_results := splitSizes (selectXYScore keypoint_results0) num_instances_per_image
  (pred_instances.zip keypoint_results).map fun p =>
    { p.1 with pred_keypoints := some p.2 }

instance : Inhabited PredInstancesI := ⟨⟨[], [], none⟩⟩

/-- A 4-D tensor shape `(n, c, h, w)`.  The network components are modelled at shape
level: every verified statement about them concerns output shapes, raise behaviour and
construction-time parameters, and the spec places the numeric convolution /
interpolation kernels outside this component (interfaces only). -/
structure Shape4 where
  n : ℕ
  c : ℕ
  h : ℕ
  w : ℕ
deriving DecidableEq

/-- A `Conv2d` module's construction parameters
`Conv2d(inC, outC, k, stride=stride, padding=pad)`. -/
structure Conv2dM where
  inC : ℕ
  outC : ℕ
  k : ℕ
  stride : ℕ
  pad : ℕ
deriving DecidableEq

/-- Modelled from the spec: the shape contract of the external `Conv2d` primitive
(`detectron2.layers` / torch, not under `src/`): zero padding `pad`, kernel `k`, stride
`stride`; spatial output `(h + 2·pad - k) / stride + 1`; errors when the channel count
does not match or the padded input is smaller than the kernel. -/
def Conv2dM.fwdShape (m : Conv2dM) (x : Shape4) : Except String Shape4 :=
  if x.c = m.inC ∧ m.stride ≠ 0 ∧ m.k ≤ x.h + 2 * m.pad ∧ m.k ≤ x.w + 2 * m.pad then
    .ok ⟨x.n, m.outC, (x.h + 2 * m.pad - m.k) / m.stride + 1,
         (x.w + 2 * m.pad - m.k) / m.stride + 1⟩
  else .error "conv2d: invalid input shape"

/-- A `ConvTranspose2d` module's construction parameters. -/
structure ConvTranspose2dM where
  inC : ℕ
  outC : ℕ
  k : ℕ
  stride : ℕ
  pad : ℕ
deriving DecidableEq

/-- Modelled from the spec: the shape contract of the external `ConvTranspose2d`
primitive: spatial output `(h - 1)·stride + k - 2·pad`. -/
def ConvTranspose2dM.fwdShape (m : ConvTranspose2dM) (x : Shape4) : Except String Shape4 :=
  if x.c = m.inC ∧ 1 ≤ x.h ∧ 1 ≤ x.w ∧ 2 * m.pad ≤ (x.h - 1) * m.stride + m.k ∧
      2 * m.pad ≤ (x.w - 1) * m.stride + m.k then
    .ok ⟨x.n, m.outC, (x.h - 1) * m.stride + m.k - 2 * m.pad,
         (x.w - 1) * m.stride + m.k - 2 * m.pad⟩
  else .error "conv_transpose2d: invalid input shape"

/-- Modelled from the spec: the shape contract of the external `interpolate` primitive
with an integer `scale_factor` (the value semantics — bilinear sampling with
`align_corners=False` — is a numeric kernel outside this component). -/
def interpolateShape (scale : ℕ) (x : Shape4) : Shape4 :=
  ⟨x.n, x.c, scale * x.h, scale * x.w⟩

/-- `F.relu` is elementwise; at shape level it is the identity. -/
def reluShape (x : Shape4) : Shape4 := x

/-- `nn.Sigmoid` is elementwise; at shape level it is the identity. -/
def sigmoidShape (x : Shape4) : Shape4 := x

/-- `torch.mean(x, dim=1, keepdim=True)`: collapses the channel dimension to 1. -/
def torchMeanDim1 (x : Shape4) : Shape4 := ⟨x.n, 1, x.h, x.w⟩

/-- Modelled from the spec: `torch.max(x, dim=1, keepdim=True)[0]` — the external
reduction primitive; per the spec (section 4.1), reducing over zero elements is
undefined in the numeric backend, so it errors on an empty tensor. -/
def torchMaxDim1 (x : Shape4) : Except String Shape4 :=
  if x.n * x.c * x.h * x.w = 0 then .error "max(): cannot reduce an empty tensor"
  else .ok ⟨x.n, 1, x.h, x.w⟩

/-- `Max(x)` (lines 130-138): the wrapper around `torch.max` in the Spatial Attention
Module (SAM).  On an empty input (`x.numel() == 0`) it returns a new empty tensor of
shape `[n, 1, h, w]` via `_NewEmptyTensorOp` instead of invoking the reduction.
(Namespaced `SAM.Max` because the bare name `Max` is taken by Mathlib.) -/
def SAM.Max (x : Shape4) : Except String Shape4 :=
  if x.n * x.c * x.h * x.w = 0 then
    .ok ⟨x.n, 1, x.h, x.w⟩
  else torchMaxDim1 x

/-- `torch.cat([a, b], dim=1)`: concatenation along the channel dimension; the other
dimensions must agree. -/
def catDim1 (a b : Shape4) : Except String Shape4 :=
  if a.n = b.n ∧ a.h = b.h ∧ a.w = b.w then .ok ⟨a.n, a.c + b.c, a.h, a.w⟩
  else .error "cat: shape mismatch"

/-- `x * self.sigmoid(scale)` with `scale` of channel width 1: broadcast multiply along
the channel dimension; shapes must otherwise agree. -/
def broadcastMulDim1 (x scale : Shape4) : Except String Shape4 :=
  if scale.n = x.n ∧ scale.h = x.h ∧ scale.w = x.w ∧ (scale.c = 1 ∨ scale.c = x.c) then
    .ok x
  else .error "mul: shape mismatch"

/-- The fields `SpatialAttention.__init__` assigns: its gate convolution
`Conv2d(2, 1, kernel_size, padding=padding, bias=False)`. -/
structure SpatialAttentionFields where
  conv : Conv2dM
deriving DecidableEq

/-- The assert and field assignments of `SpatialAttention.__init__` (lines 140-147):
`assert kernel_size in (3, 7)`, `padding = 3 if kernel_size == 7 else 1`, and the gate
convolution.  The subsequent `weight_init` call is modelled in `SpatialAttention.init`.
The error carries the assert's message. -/
def SpatialAttention.initFields (kernel_size : ℕ) : Except String SpatialAttentionFields :=
  if kernel_size = 3 ∨ kernel_size = 7 then
    .ok ⟨⟨2, 1, kernel_size, 1, if kernel_size = 7 then 3 else 1⟩⟩
  else .error "kernel size must be 3 or 7"

/-- Errors a construction can raise: the assert, and an unbound-name lookup. -/
inductive PyError where
  | assertionError : String → PyError
  | nameError : String → PyError
deriving DecidableEq

/-- The names bound at module scope of `keypoint_head.py`: its import list (lines 2-10)
and its module-level definitions.  `weight_init` is referenced by
`SpatialAttention.__init__` (line 146) but never imported or assigned. -/
def moduleLevelNames : List String :=
  ["List", "torch", "nn", "F",
   "Conv2d", "ConvTranspose2d", "ShapeSpec", "cat", "interpolate",
   "Instances", "heatmaps_to_keypoints", "get_event_storage", "Registry",
   "_TOTAL_SKIPPED", "ROI_KEYPOINT_HEAD_REGISTRY", "build_keypoint_head",
   "keypoint_rcnn_loss", "keypoint_rcnn_inference", "_NewEmptyTensorOp", "Max",
   "SpatialAttention", "BaseKeypointRCNNHead", "KRCNNConvDeconvUpsampleHead"]

/-- `SpatialAttention.__init__(kernel_size)` in full (lines 141-148): the assert and
field assignments, then `weight_init.c2_msra_fill(self.conv)`, which resolves the name
`weight_init` at module scope; an unbound name raises NameError in Python. -/
def SpatialAttention.init (kernel_size : ℕ) : Except PyError SpatialAttentionFields :=
  match SpatialAttention.initFields kernel_size with
  | .error msg => .error (.assertionError msg)
  | .ok fields =>
      if moduleLevelNames.contains "weight_init" then .ok fields
      else .error (.nameError "weight_init")

/-- `SpatialAttention.forward(x)` (lines 149-154): channel mean, guarded channel max,
concatenation, the gate convolution, sigmoid, broadcast multiply. -/
def SpatialAttention.forward (g : SpatialAttentionFields) (x : Shape4) :
    Except String Shape4 := do
  let avg_out := torchMeanDim1 x
  let max_out ← SAM.Max x
  let scale ← catDim1 avg_out max_out
  let scale2 ← g.conv.fwdShape scale
  broadcastMulDim1 x (sigmoidShape scale2)

/-- `input_shape` metadata (`ShapeSpec`): the channel count of the pooled region
features, the only field `KRCNNConvDeconvUpsampleHead.__init__` reads. -/
structure KptShapeSpec where
  channels : ℕ

/-- Configuration read by `KRCNNConvDeconvUpsampleHead.__init__`: `CONV_DIMS` and
`NUM_KEYPOINTS`.  The `kernel_size` field is the attention-gate kernel size the spec
(section 6) claims is consumed; the source never reads any such field, which the C6
theorems make precise. -/
structure KRCNNHeadCfg where
  conv_dims : List ℕ
  num_keypoints : ℕ
  kernel_size : ℕ

/-- The conv blocks built by the loop over `conv_dims` (lines 238-243):
`Conv2d(in_channels, layer_channels, 3, stride=1, padding=1)`, threading each stage's
output channels into the next stage's input channels. -/
def buildConvBlocks : ℕ → List ℕ → List Conv2dM
  | _, [] => []
  | in_channels, layer_channels :: rest =>
      ⟨in_channels, layer_channels, 3, 1, 1⟩ :: buildConvBlocks layer_channels rest

/-- The value of `in_channels` after the conv-block loop: the last element of
`conv_dims`, or the input channel count when `conv_dims` is empty. -/
def lastChannels (in_channels : ℕ) : List ℕ → ℕ
  | [] => in_channels
  | layer_channels :: rest => lastChannels layer_channels rest

/-- The fields `KRCNNConvDeconvUpsampleHead.__init__` assigns: the conv blocks, the
attention gate, the `score_lowres` transposed convolution and the upsample factor. -/
structure KRCNNHeadFields where
  blocks : List Conv2dM
  spatialAtt : SpatialAttentionFields
  score_lowres : ConvTranspose2dM
  up_scale : ℕ
deriving DecidableEq

/-- The structural effect of `KRCNNConvDeconvUpsampleHead.__init__(cfg, input_shape)`
(lines 224-264): `up_scale = 2`; the conv blocks from `conv_dims`;
`self.spatialAtt = SpatialAttention()`, i.e. the gate with its default kernel size 3
(so padding 1) — no configuration field is read for it; `deconv_kernel = 4`;
`score_lowres = ConvTranspose2d(in_channels, num_keypoints, 4, stride=2,
padding=4 // 2 - 1)`.  The weight-initialization loop only fills parameter values, and
the NameError its gate runs into is modelled by `SpatialAttention.init` (see C5). -/
def KRCNNConvDeconvUpsampleHead.initFields (cfg : KRCNNHeadCfg)
    (input_shape : KptShapeSpec) : KRCNNHeadFields :=
  let up_scale := 2
  let in_channels := input_shape.channels
  let deconv_kernel := 4
  { blocks := buildConvBlocks in_channels cfg.conv_dims
    spatialAtt := ⟨⟨2, 1, 3, 1, 1⟩⟩
    score_lowres := ⟨lastChannels in_channels cfg.conv_dims, cfg.num_keypoints,
                     deconv_kernel, 2, deconv_kernel / 2 - 1⟩
    up_scale := up_scale }

/-- `KRCNNConvDeconvUpsampleHead.layers(x)` (lines 258-264): the attention gate, then
each conv block followed by `F.relu`, then `score_lowres`, then the bilinear
`interpolate` by `up_scale` (the call site passes `mode="bilinear"`,
`align_corners=False`, which affect sampling, not shapes). -/
def KRCNNConvDeconvUpsampleHead.layers (hd : KRCNNHeadFields) (x : Shape4) :
    Except String Shape4 := do
  let x1 ← SpatialAttention.forward hd.spatialAtt x
  let x2 ← hd.blocks.foldlM (fun s m => (m.fwdShape s).map reluShape) x1
  let x3 ← hd.score_lowres.fwdShape x2
  .ok (interpolateShape hd.up_scale x3)

/-! ## Helper lemmas -/

/-- Skipping empty per-image lists does not change a concatenation of per-instance
data: the kept images' flattened rows concatenate to the same sequence as every
instance's rows in order. -/
theorem kept_map_flatten {α : Type} (g : InstanceAnn → List α)
    (instances : List (List InstanceAnn)) :
    ((kptKept instances).map fun img => (img.map g).flatten).flatten
      = (instances.flatten.map g).flatten := by
  induction instances with
  | nil => rfl
  | cons img rest ih =>
    by_cases h : img.length = 0
    · have himg : img = [] := List.length_eq_zero.mp h
      subst himg
      simpa [kptKept, List.filter_cons, List.flatten_cons] using ih
    · have hflat : ((img :: rest).flatten.map g).flatten
          = (img.map g).flatten ++ (rest.flatten.map g).flatten := by
        rw [List.flatten_cons, List.map_append, List.flatten_append]
      rw [hflat, ← ih]
      simp only [kptKept, List.filter_cons]
      rw [if_pos (by simp [h]), List.map_cons, List.flatten_cons]

/-- The local `valid` flag concatenation of the loss equals the spec's concatenation of
all validity flags. -/
theorem kptValidFlags_flatten (enc : Encoder) (S : ℕ)
    (instances : List (List InstanceAnn)) :
    (kptValidFlags enc S instances).flatten = allFlags enc S instances := by
  simpa [kptValidFlags, to_heatmap, allFlags] using
    kept_map_flatten (fun a => (enc a S).2) instances

/-- The local `keypoint_targets` of the loss equals the spec's concatenation of all bin
indices. -/
theorem kptTargets_eq (enc : Encoder) (S : ℕ) (instances : List (List InstanceAnn)) :
    kptTargets enc S instances = allBins enc S instances := by
  simpa [kptTargets, kptHeatmaps, to_heatmap, allBins] using
    kept_map_flatten (fun a => (enc a S).1) instances

/-- The local `valid` index list of the loss equals the spec's `valid`. -/
theorem kptValid_eq (enc : Encoder) (S : ℕ) (instances : List (List InstanceAnn)) :
    kptValid enc S instances = specValid enc S instances := by
  rw [kptValid, kptValidFlags_flatten]; rfl

/-- Membership in `nonzeroIdx`. -/
theorem nonzeroIdx_mem (l : List Bool) (i : ℕ) :
    i ∈ nonzeroIdx l ↔ i < l.length ∧ l.getD i false = true := by
  simp [nonzeroIdx, List.mem_filter, List.mem_range]

/-- `nonzeroIdx` of an all-false list is empty. -/
theorem nonzeroIdx_eq_nil (l : List Bool) (h : ∀ b ∈ l, b = false) : nonzeroIdx l = [] := by
  rw [nonzeroIdx, List.filter_eq_nil_iff]
  intro i hi
  rw [List.mem_range] at hi
  rw [List.getD_eq_getElem l false hi]
  simp [h l[i] (l.getElem_mem hi)]

/-- When the per-instance encoder returns as many bin indices as validity flags, the
two concatenations have equal length. -/
theorem allBins_length_eq (enc : Encoder) (S : ℕ) (instances : List (List InstanceAnn))
    (hEnc : ∀ a : InstanceAnn, ((enc a S).1).length = ((enc a S).2).length) :
    (allBins enc S instances).length = (allFlags enc S instances).length := by
  rw [allBins, allFlags, List.length_flatten, List.length_flatten, List.map_map,
    List.map_map]
  exact congrArg List.sum (List.map_congr_left fun a _ => hEnc a)

/-- The state effect of one loss invocation: the counter is incremented and reported
exactly on the degenerate path, and the state is untouched otherwise. -/
theorem keypoint_rcnn_loss_fst (ce : CrossEntropyFn) (enc : Encoder)
    (N K S : ℕ) (logits : Logits4) (instances : List (List InstanceAnn))
    (normalizer : Option ℚ) (st : LossState) :
    (keypoint_rcnn_loss ce enc N K S logits instances normalizer st).1 =
      if lossDegenerate enc S instances then
        ⟨st.totalSkipped + 1,
         st.events ++ [("kpts_num_skipped_batches", st.totalSkipped + 1)]⟩
      else st := by
  have hd : lossDegenerate enc S instances = true ↔
      ((kptHeatmaps enc S instances).length = 0 ∨ (kptValid enc S instances).length = 0) := by
    simp [lossDegenerate, Bool.or_eq_true]
  rw [keypoint_rcnn_loss.eq_def]
  by_cases h : (kptHeatmaps enc S instances).length = 0 ∨ (kptValid enc S instances).length = 0
  · rw [if_pos h, if_pos (hd.mpr h)]
  · rw [if_neg h, if_neg fun hc => h (hd.mp hc)]
    split <;> rfl

/-- Evaluation of the loss on the degenerate path. -/
theorem keypoint_rcnn_loss_degenerate (ce : CrossEntropyFn) (enc : Encoder)
    (N K S : ℕ) (logits : Logits4) (instances : List (List InstanceAnn))
    (normalizer : Option ℚ) (st : LossState)
    (h : lossDegenerate enc S instances = true) :
    keypoint_rcnn_loss ce enc N K S logits instances normalizer st =
      (⟨st.totalSkipped + 1,
        st.events ++ [("kpts_num_skipped_batches", st.totalSkipped + 1)]⟩,
       .ok (logitsSum N K S logits * 0)) := by
  rw [keypoint_rcnn_loss.eq_def,
    if_pos (by simpa [lossDegenerate, Bool.or_eq_true] using h)]

/-- If every per-image instance list is empty, or every validity flag the encoder
produces is false, then the loss takes the degenerate path. -/
theorem lossDegenerate_of_empty_or_invisible (enc : Encoder) (S : ℕ)
    (instances : List (List InstanceAnn))
    (h : (∀ img ∈ instances, img = []) ∨
      (∀ a ∈ instances.flatten, ∀ b ∈ (enc a S).2, b = false)) :
    lossDegenerate enc S instances = true := by
  rcases h with h | h
  · have hk : kptKept instances = [] := by
      rw [kptKept, List.filter_eq_nil_iff]
      intro img hi
      simp [h img hi]
    simp [lossDegenerate, kptHeatmaps, hk]
  · have hflags : ∀ b ∈ (kptValidFlags enc S instances).flatten, b = false := by
      rw [kptValidFlags_flatten]
      intro b hb
      rw [allFlags, List.mem_flatten] at hb
      obtain ⟨row, hrow, hbrow⟩ := hb
      rw [List.mem_map] at hrow
      obtain ⟨a, ha, rfl⟩ := hrow
      exact h a ha b hbrow
    have : kptValid enc S instances = [] := nonzeroIdx_eq_nil _ hflags
    simp [lossDegenerate, this]

/-- Evaluation of the loss on the non-degenerate path: with at least one valid
keypoint and indices within the logits' bounds, the loss is the spec's
pre-normalization sum divided by the chosen normalizer, and the state is untouched. -/
theorem keypoint_rcnn_loss_nondegenerate (ce : CrossEntropyFn) (enc : Encoder)
    (N K S : ℕ) (logits : Logits4) (instances : List (List InstanceAnn))
    (normalizer : Option ℚ) (st : LossState)
    (hlen : (allBins enc S instances).length = (allFlags enc S instances).length)
    (hvalid : specValid enc S instances ≠ [])
    (hbound : ∀ i ∈ specValid enc S instances, i < N * K) :
    keypoint_rcnn_loss ce enc N K S logits instances normalizer st =
      (st, .ok (spec_preNormLoss ce enc K S logits instances /
        match normalizer with
        | none => ((specValid enc S instances).length : ℚ)
        | some n => n)) := by
  have hv : kptValid enc S instances = specValid enc S instances := kptValid_eq enc S instances
  have ht : kptTargets enc S instances = allBins enc S instances := kptTargets_eq enc S instances
  have hcond : ¬ ((kptHeatmaps enc S instances).length = 0 ∨
      (kptValid enc S instances).length = 0) := by
    rintro (h | h)
    · have hk : kptKept instances = [] := by
        rw [kptHeatmaps, List.length_map] at h
        exact List.length_eq_zero.mp h
      have hnil : kptValid enc S instances = [] := by
        simp [kptValid, kptValidFlags, hk, nonzeroIdx]
      rw [hv] at hnil
      exact hvalid hnil
    · rw [hv, List.length_eq_zero] at h
      exact hvalid h
  have hall : ((kptValid enc S instances).all fun i =>
      decide (i < N * K) && decide (i < (kptTargets enc S instances).length)) = true := by
    rw [List.all_eq_true]
    intro i hi
    rw [hv] at hi
    have h1 : i < N * K := hbound i hi
    have h2 : i < (allFlags enc S instances).length :=
      ((nonzeroIdx_mem _ _).mp hi).1
    have h3 : i < (kptTargets enc S instances).length := by
      rw [ht, hlen]; exact h2
    simp [h1, h3]
  rw [keypoint_rcnn_loss.eq_def, if_neg hcond, if_pos hall]
  simp only [List.zip_map', List.map_map, hv, ht, spec_preNormLoss, Function.comp]
  rfl

/-- Unfolding of the report trace: the first degenerate batch reports `base + 1` and
the remaining ones continue from there. -/
theorem skipTrace_succ (base d : ℕ) :
    skipTrace base (d + 1) =
      ("kpts_num_skipped_batches", base + 1) :: skipTrace (base + 1) d := by
  simp only [skipTrace, List.range_succ_eq_map, List.map_cons, List.map_map]
  refine congrArg₂ _ (by simp) ?_
  exact List.map_congr_left fun i _ => by simp [Function.comp, Prod.ext_iff]; omega

/-- Running a sequence of batches from any initial state adds the number of degenerate
batches to the counter and appends exactly their reports to the event storage. -/
theorem runLossBatches_eq (ce : CrossEntropyFn) (enc : Encoder)
    (batches : List KptLossBatch) (st : LossState) :
    runLossBatches ce enc batches st =
      ⟨st.totalSkipped + (batches.filter fun b => lossDegenerate enc b.S b.instances).length,
       st.events ++ skipTrace st.totalSkipped
         ((batches.filter fun b => lossDegenerate enc b.S b.instances).length)⟩ := by
  induction batches generalizing st with
  | nil =>
    cases st
    simp [runLossBatches, skipTrace]
  | cons b bs ih =>
    rw [runLossBatches, keypoint_rcnn_loss_fst]
    by_cases h : lossDegenerate enc b.S b.instances = true
    · rw [if_pos h, ih, List.filter_cons, if_pos h, List.length_cons, skipTrace_succ]
      simp only [LossState.mk.injEq]
      constructor
      · omega
      · simp [List.append_assoc]
    · rw [if_neg h, ih, List.filter_cons, if_neg h]

/-- `splitSizes` produces one chunk per requested size. -/
theorem splitSizes_length {α : Type} (l : List α) (ns : List ℕ) :
    (splitSizes l ns).length = ns.length := by
  induction ns generalizing l with
  | nil => rfl
  | cons n ns ih => simp [splitSizes, ih]

/-- The i-th chunk of `splitSizes` is the i-th window of the flat list: skip the
preceding sizes, take the i-th size. -/
theorem splitSizes_getD {α : Type} (l : List α) (ns : List ℕ) (i : ℕ) (hi : i < ns.length) :
    (splitSizes l ns).getD i [] = (l.drop ((ns.take i).sum)).take (ns.getD i 0) := by
  induction ns generalizing l i with
  | nil => simp at hi
  | cons n ns ih =>
    cases i with
    | zero => simp [splitSizes]
    | succ i =>
      rw [splitSizes, List.getD_cons_succ, ih (l.drop n) i (by simpa using hi)]
      simp [List.drop_drop, Nat.add_comm]

/-- The guarded channel max never raises: the wrapper's empty branch covers exactly the
inputs the raw reduction rejects, and both branches produce shape `(n, 1, h, w)`. -/
theorem SAM_Max_ok (x : Shape4) : SAM.Max x = .ok ⟨x.n, 1, x.h, x.w⟩ := by
  rw [SAM.Max]
  by_cases h : x.n * x.c * x.h * x.w = 0
  · rw [if_pos h]
  · rw [if_neg h, torchMaxDim1, if_neg h]

/-- A stride-1 convolution whose kernel matches its zero-centered padding
(`k = 2·p + 1`) preserves spatial size. -/
theorem conv_same_shape (inC outC k p R C H W : ℕ) (hc : C = inC) (hk : k = 2 * p + 1)
    (hH : 1 ≤ H) (hW : 1 ≤ W) :
    Conv2dM.fwdShape ⟨inC, outC, k, 1, p⟩ ⟨R, C, H, W⟩ = .ok ⟨R, outC, H, W⟩ := by
  subst hc
  subst hk
  show (if C = C ∧ (1 : ℕ) ≠ 0 ∧ 2 * p + 1 ≤ H + 2 * p ∧ 2 * p + 1 ≤ W + 2 * p then
      (.ok ⟨R, outC, (H + 2 * p - (2 * p + 1)) / 1 + 1, (W + 2 * p - (2 * p + 1)) / 1 + 1⟩ :
        Except String Shape4)
    else .error "conv2d: invalid input shape") = .ok ⟨R, outC, H, W⟩
  rw [if_pos ⟨rfl, one_ne_zero, by omega, by omega⟩]
  have hh : (H + 2 * p - (2 * p + 1)) / 1 + 1 = H := by rw [Nat.div_one]; omega
  have hw : (W + 2 * p - (2 * p + 1)) / 1 + 1 = W := by rw [Nat.div_one]; omega
  rw [hh, hw]

/-- Binding a successful `Except` computation just applies the continuation. -/
theorem exceptBind_ok {ε α β : Type} (a : α) (f : α → Except ε β) :
    ((.ok a : Except ε α) >>= f) = f a := rfl

/-- The attention gate preserves the input shape for any batch size (including 0) when
its convolution has matching kernel and padding and the spatial size is nonzero. -/
theorem SpatialAttention_forward_ok (k p R C H W : ℕ) (hk : k = 2 * p + 1)
    (hH : 1 ≤ H) (hW : 1 ≤ W) :
    SpatialAttention.forward ⟨⟨2, 1, k, 1, p⟩⟩ ⟨R, C, H, W⟩ = .ok ⟨R, C, H, W⟩ := by
  have hcat : catDim1 (torchMeanDim1 ⟨R, C, H, W⟩) ⟨R, 1, H, W⟩ = .ok ⟨R, 2, H, W⟩ := by
    rw [torchMeanDim1, catDim1, if_pos ⟨rfl, rfl, rfl⟩]
    rfl
  have hconv : Conv2dM.fwdShape ⟨2, 1, k, 1, p⟩ ⟨R, 2, H, W⟩ = .ok ⟨R, 1, H, W⟩ :=
    conv_same_shape 2 1 k p R 2 H W rfl hk hH hW
  have hmul : broadcastMulDim1 ⟨R, C, H, W⟩ (sigmoidShape ⟨R, 1, H, W⟩) = .ok ⟨R, C, H, W⟩ := by
    rw [sigmoidShape, broadcastMulDim1, if_pos ⟨rfl, rfl, rfl, Or.inl rfl⟩]
  rw [SpatialAttention.forward, SAM_Max_ok, exceptBind_ok, hcat, exceptBind_ok, hconv,
    exceptBind_ok, hmul]

/-- Every conv block the head builds is a 3×3, stride-1, padding-1 convolution. -/
theorem buildConvBlocks_params (inC : ℕ) (dims : List ℕ) :
    ∀ m ∈ buildConvBlocks inC dims, m.k = 3 ∧ m.stride = 1 ∧ m.pad = 1 := by
  induction dims generalizing inC with
  | nil => intro m hm; simp [buildConvBlocks] at hm
  | cons d dims ih =>
    intro m hm
    rw [buildConvBlocks] at hm
    rcases List.mem_cons.mp hm with rfl | h
    · exact ⟨rfl, rfl, rfl⟩
    · exact ih d m h

/-- The conv-with-ReLU stack preserves spatial size and threads the channel counts,
ending at the last configured channel count. -/
theorem blocks_foldlM (dims : List ℕ) (inC R H W : ℕ) (hH : 1 ≤ H) (hW : 1 ≤ W) :
    (buildConvBlocks inC dims).foldlM
        (fun s m => (Conv2dM.fwdShape m s).map reluShape) (⟨R, inC, H, W⟩ : Shape4)
      = .ok ⟨R, lastChannels inC dims, H, W⟩ := by
  induction dims generalizing inC with
  | nil => rfl
  | cons d dims ih =>
    rw [buildConvBlocks, List.foldlM_cons,
      conv_same_shape inC d 3 1 R inC H W rfl rfl hH hW]
    show ((Except.ok (reluShape ⟨R, d, H, W⟩) : Except String Shape4) >>= fun s =>
      (buildConvBlocks d dims).foldlM (fun s m => (Conv2dM.fwdShape m s).map reluShape) s) = _
    rw [exceptBind_ok, reluShape, ih d, lastChannels]

/-- The `score_lowres` transposed convolution (kernel 4, stride 2, padding 1) doubles
the spatial size and maps to its configured output channels. -/
theorem deconv_shape (inC outC R H W : ℕ) (hH : 1 ≤ H) (hW : 1 ≤ W) :
    ConvTranspose2dM.fwdShape ⟨inC, outC, 4, 2, 1⟩ ⟨R, inC, H, W⟩
      = .ok ⟨R, outC, 2 * H, 2 * W⟩ := by
  show (if inC = inC ∧ 1 ≤ H ∧ 1 ≤ W ∧ 2 * 1 ≤ (H - 1) * 2 + 4 ∧ 2 * 1 ≤ (W - 1) * 2 + 4 then
      (.ok ⟨R, outC, (H - 1) * 2 + 4 - 2 * 1, (W - 1) * 2 + 4 - 2 * 1⟩ : Except String Shape4)
    else .error "conv_transpose2d: invalid input shape") = .ok ⟨R, outC, 2 * H, 2 * W⟩
  rw [if_pos ⟨rfl, hH, hW, by omega, by omega⟩]
  have hh : (H - 1) * 2 + 4 - 2 * 1 = 2 * H := by omega
  have hw : (W - 1) * 2 + 4 - 2 * 1 = 2 * W := by omega
  rw [hh, hw]

/-- Full shape computation of the head's `layers` on an `(R, C_in, H, W)` input. -/
theorem head_layers_shape (cfg : KRCNNHeadCfg) (ish : KptShapeSpec) (R H W : ℕ)
    (hH : 1 ≤ H) (hW : 1 ≤ W) :
    KRCNNConvDeconvUpsampleHead.layers (KRCNNConvDeconvUpsampleHead.initFields cfg ish)
      ⟨R, ish.channels, H, W⟩ = .ok ⟨R, cfg.num_keypoints, 4 * H, 4 * W⟩ := by
  rw [KRCNNConvDeconvUpsampleHead.layers]
  rw [show (KRCNNConvDeconvUpsampleHead.initFields cfg ish).spatialAtt
      = ⟨⟨2, 1, 3, 1, 1⟩⟩ from rfl]
  rw [SpatialAttention_forward_ok 3 1 R ish.channels H W rfl hH hW]
  simp only [exceptBind_ok]
  rw [show (KRCNNConvDeconvUpsampleHead.initFields cfg ish).blocks
      = buildConvBlocks ish.channels cfg.conv_dims from rfl]
  rw [blocks_foldlM cfg.conv_dims ish.channels R H W hH hW]
  simp only [exceptBind_ok]
  rw [show (KRCNNConvDeconvUpsampleHead.initFields cfg ish).score_lowres
      = ⟨lastChannels ish.channels cfg.conv_dims, cfg.num_keypoints, 4, 2, 1⟩ from rfl]
  rw [deconv_shape (lastChannels ish.channels cfg.conv_dims) cfg.num_keypoints R H W hH hW]
  simp only [exceptBind_ok]
  rw [show (KRCNNConvDeconvUpsampleHead.initFields cfg ish).up_scale = 2 from rfl]
  rw [interpolateShape]
  have h4 : 2 * (2 * H) = 4 * H := by omega
  have w4 : 2 * (2 * W) = 4 * W := by omega
  rw [h4, w4]

/-! ## Claim theorems -/

/-- C1: for every training batch in which either every per-image instance list is empty
or no keypoint validity flag is true, `keypoint_rcnn_loss` does not raise and returns
the value `sum(pred_keypoint_logits) * 0`, which equals exactly zero (the logits sum is
kept in the returned expression, mirroring the gradient-preserving `sum() * 0` of the
source); the skip counter is incremented and reported. -/
theorem C1_degenerate_zero_loss (ce : CrossEntropyFn) (enc : Encoder)
    (N K S : ℕ) (logits : Logits4) (instances : List (List InstanceAnn))
    (normalizer : Option ℚ) (st : LossState)
    (h : (∀ img ∈ instances, img = []) ∨
      (∀ a ∈ instances.flatten, ∀ b ∈ (enc a S).2, b = false)) :
    keypoint_rcnn_loss ce enc N K S logits instances normalizer st =
      (⟨st.totalSkipped + 1,
        st.events ++ [("kpts_num_skipped_batches", st.totalSkipped + 1)]⟩,
       .ok (logitsSum N K S logits * 0))
    ∧ logitsSum N K S logits * 0 = 0 :=
  ⟨keypoint_rcnn_loss_degenerate ce enc N K S logits instances normalizer st
      (lossDegenerate_of_empty_or_invisible enc S instances h),
   mul_zero _⟩

/-- Witness for C1 at a concrete batch with one image and no instances. -/
theorem C1_witness :
    keypoint_rcnn_loss (fun _ _ => 0) (fun _ _ => ([], [])) 1 1 1 (fun _ _ _ _ => 1)
        [[]] none ⟨0, []⟩
      = (⟨1, [("kpts_num_skipped_batches", 1)]⟩,
         .ok (logitsSum 1 1 1 (fun _ _ _ _ => 1) * 0))
    ∧ logitsSum 1 1 1 (fun _ _ _ _ => 1) * 0 = 0 :=
  C1_degenerate_zero_loss (fun _ _ => 0) (fun _ _ => ([], [])) 1 1 1 (fun _ _ _ _ => 1)
    [[]] none ⟨0, []⟩ (Or.inl fun _ h => List.mem_singleton.mp h)

/-- C2: for every training batch with at least one valid keypoint (and shape-consistent
encoder output and indices), the pre-normalization loss computed by
`keypoint_rcnn_loss` is exactly the spec's formula: the sum over the rows of the
reshaped `(R·K, S·S)` logits whose index is in `valid` of the per-row cross-entropy
against that row's target bin index — summed, not averaged — and the returned value is
that sum divided by the chosen normalizer. -/
theorem C2_pre_normalization_sum (ce : CrossEntropyFn) (enc : Encoder)
    (N K S : ℕ) (logits : Logits4) (instances : List (List InstanceAnn))
    (normalizer : Option ℚ) (st : LossState)
    (hEnc : ∀ a : InstanceAnn, ((enc a S).1).length = ((enc a S).2).length)
    (hvalid : specValid enc S instances ≠ [])
    (hbound : ∀ i ∈ specValid enc S instances, i < N * K) :
    keypoint_rcnn_loss ce enc N K S logits instances normalizer st =
      (st, .ok (spec_preNormLoss ce enc K S logits instances /
        match normalizer with
        | none => ((specValid enc S instances).length : ℚ)
        | some n => n)) :=
  keypoint_rcnn_loss_nondegenerate ce enc N K S logits instances normalizer st
    (allBins_length_eq enc S instances hEnc) hvalid hbound

/-- Witness for C2 at a concrete one-image, one-instance, one-keypoint batch. -/
theorem C2_witness :
    keypoint_rcnn_loss (fun row t => row t) (fun _ _ => ([0], [true])) 1 1 1
        (fun _ _ _ _ => 1) [[⟨[(0, 0, 1)], (0, 0, 1, 1)⟩]] none ⟨0, []⟩
      = (⟨0, []⟩,
         .ok (spec_preNormLoss (fun row t => row t) (fun _ _ => ([0], [true])) 1 1
            (fun _ _ _ _ => 1) [[⟨[(0, 0, 1)], (0, 0, 1, 1)⟩]] /
          ((specValid (fun _ _ => ([0], [true])) 1 [[⟨[(0, 0, 1)], (0, 0, 1, 1)⟩]]).length :
            ℚ))) :=
  C2_pre_normalization_sum (fun row t => row t) (fun _ _ => ([0], [true])) 1 1 1
    (fun _ _ _ _ => 1) [[⟨[(0, 0, 1)], (0, 0, 1, 1)⟩]] none ⟨0, []⟩
    (fun _ => rfl) (by decide) (by decide)

/-- C3: on the non-degenerate path the summed loss is divided by exactly the chosen
normalizer — the explicit one when supplied; `len(valid)` when the normalizer is
`None`; and the controller passes `None` when its normalize-by-visible-keypoints flag
is on, else the constant `K × per-image budget × positive fraction × number of
images` — and the controller returns the quotient times the loss weight under the
fixed name `"loss_keypoint"`. -/
theorem C3_normalizer_choice (ce : CrossEntropyFn) (enc : Encoder)
    (N K S : ℕ) (logits : Logits4) (instances : List (List InstanceAnn)) (st : LossState)
    (hEnc : ∀ a : InstanceAnn, ((enc a S).1).length = ((enc a S).2).length)
    (hvalid : specValid enc S instances ≠ [])
    (hbound : ∀ i ∈ specValid enc S instances, i < N * K) :
    (∀ n : ℚ, keypoint_rcnn_loss ce enc N K S logits instances (some n) st =
      (st, .ok (spec_preNormLoss ce enc K S logits instances / n)))
    ∧ (keypoint_rcnn_loss ce enc N K S logits instances none st =
      (st, .ok (spec_preNormLoss ce enc K S logits instances /
        ((specValid enc S instances).length : ℚ))))
    ∧ (∀ cfg : ControllerCfg, cfg.normalize_by_visible_keypoints = false →
      BaseKeypointRCNNHead.forward_training ce enc cfg N K S logits instances st =
        (st, .ok [("loss_keypoint",
          spec_preNormLoss ce enc K S logits instances /
            ((cfg.num_keypoints : ℚ) * (cfg.batch_size_per_image : ℚ) *
              cfg.positive_sample_fraction * (instances.length : ℚ)) *
            cfg.loss_weight)]))
    ∧ (∀ cfg : ControllerCfg, cfg.normalize_by_visible_keypoints = true →
      BaseKeypointRCNNHead.forward_training ce enc cfg N K S logits instances st =
        (st, .ok [("loss_keypoint",
          spec_preNormLoss ce enc K S logits instances /
            ((specValid enc S instances).length : ℚ) * cfg.loss_weight)])) := by
  have hlen := allBins_length_eq enc S instances hEnc
  refine ⟨fun n => keypoint_rcnn_loss_nondegenerate ce enc N K S logits instances
      (some n) st hlen hvalid hbound,
    keypoint_rcnn_loss_nondegenerate ce enc N K S logits instances none st
      hlen hvalid hbound, ?_, ?_⟩
  · intro cfg hflag
    have hdiv : (instances.length : ℚ) * normalizer_per_img cfg =
        (cfg.num_keypoints : ℚ) * (cfg.batch_size_per_image : ℚ) *
          cfg.positive_sample_fraction * (instances.length : ℚ) := by
      rw [normalizer_per_img]; ring
    simp only [BaseKeypointRCNNHead.forward_training, hflag, Bool.false_eq_true,
      if_false]
    rw [keypoint_rcnn_loss_nondegenerate ce enc N K S logits instances
      (some ((instances.length : ℚ) * normalizer_per_img cfg)) st hlen hvalid hbound]
    rw [show (match (some ((instances.length : ℚ) * normalizer_per_img cfg) : Option ℚ)
        with
        | none => ((specValid enc S instances).length : ℚ)
        | some n => n) = (instances.length : ℚ) * normalizer_per_img cfg from rfl]
    rw [hdiv]
    rfl
  · intro cfg hflag
    simp only [BaseKeypointRCNNHead.forward_training, hflag, if_true]
    rw [keypoint_rcnn_loss_nondegenerate ce enc N K S logits instances none st
      hlen hvalid hbound]
    rfl

/-- Witness for C3 at a concrete one-image, one-instance, one-keypoint batch and a
concrete configuration. -/
theorem C3_witness :
    BaseKeypointRCNNHead.forward_training (fun row t => row t) (fun _ _ => ([0], [true]))
        ⟨2, false, 1, 4, 1/4⟩ 1 1 1 (fun _ _ _ _ => 1) [[⟨[(0, 0, 1)], (0, 0, 1, 1)⟩]]
        ⟨0, []⟩
      = (⟨0, []⟩, .ok [("loss_keypoint",
          spec_preNormLoss (fun row t => row t) (fun _ _ => ([0], [true])) 1 1
              (fun _ _ _ _ => 1) [[⟨[(0, 0, 1)], (0, 0, 1, 1)⟩]] /
            (((1 : ℕ) : ℚ) * ((4 : ℕ) : ℚ) * (1/4) *
              (([[(⟨[(0, 0, 1)], (0, 0, 1, 1)⟩ : InstanceAnn)]].length : ℕ) : ℚ)) *
            2)]) :=
  ((C3_normalizer_choice (fun row t => row t) (fun _ _ => ([0], [true])) 1 1 1
      (fun _ _ _ _ => 1) [[⟨[(0, 0, 1)], (0, 0, 1, 1)⟩]] ⟨0, []⟩
      (fun _ => rfl) (by decide) (by decide)).2.2.1) ⟨2, false, 1, 4, 1/4⟩ rfl

/-- C4: when the per-image instance counts sum to the decoder's row count,
`keypoint_rcnn_inference` selects exactly the `(x, y, score)` columns of the decoded
`(x, y, intermediate, score)` output, splits them into per-image chunks of exactly the
original per-image instance counts in the original image order, and attaches each chunk
under the fixed `pred_keypoints` field, leaving every other field of every collection
unchanged (the attachment is the sole observable effect). -/
theorem C4_inference_split (dec : KptDecoder) (logits : Logits4)
    (pred_instances : List PredInstancesI)
    (hdec : (dec logits ((pred_instances.map fun b => b.pred_boxes).flatten)).length
      = (pred_instances.map fun i => i.pred_boxes.length).sum) :
    (keypoint_rcnn_inference dec logits pred_instances).length = pred_instances.length
    ∧ ∀ i, i < pred_instances.length →
      ((keypoint_rcnn_inference dec logits pred_instances).getD i default).pred_boxes
          = (pred_instances.getD i default).pred_boxes
      ∧ ((keypoint_rcnn_inference dec logits pred_instances).getD i default).other_fields
          = (pred_instances.getD i default).other_fields
      ∧ ((keypoint_rcnn_inference dec logits pred_instances).getD i default).pred_keypoints
          = some (((selectXYScore
                (dec logits ((pred_instances.map fun b => b.pred_boxes).flatten))).drop
              (((pred_instances.map fun i => i.pred_boxes.length).take i).sum)).take
            ((pred_instances.getD i default).pred_boxes.length))
      ∧ ((((keypoint_rcnn_inference dec logits pred_instances).getD i
            default).pred_keypoints).getD []).length
          = (pred_instances.getD i default).pred_boxes.length := by
  have hcounts_len : (pred_instances.map fun i => i.pred_boxes.length).length
      = pred_instances.length := List.length_map _ _
  have hsel_len :
      (selectXYScore (dec logits ((pred_instances.map fun b => b.pred_boxes).flatten))).length
        = (pred_instances.map fun i => i.pred_boxes.length).sum := by
    rw [selectXYScore, List.length_map, hdec]
  have hchunks_len :
      (splitSizes (selectXYScore (dec logits ((pred_instances.map fun b => b.pred_boxes).flatten)))
          (pred_instances.map fun i => i.pred_boxes.length)).length
        = pred_instances.length := by
    rw [splitSizes_length, hcounts_len]
  have hlen : (keypoint_rcnn_inference dec logits pred_instances).length
      = pred_instances.length := by
    simp only [keypoint_rcnn_inference]
    rw [List.length_map, List.length_zip, hchunks_len, min_self]
  refine ⟨hlen, fun i hi => ?_⟩
  have hic : i < (pred_instances.map fun i => i.pred_boxes.length).length := by
    rw [hcounts_len]; exact hi
  have hcnt : (pred_instances.map fun i => i.pred_boxes.length).getD i 0
      = (pred_instances.getD i default).pred_boxes.length := by
    rw [List.getD_eq_getElem _ _ hic, List.getElem_map, List.getD_eq_getElem _ _ hi]
  have hichunks : i < (splitSizes
      (selectXYScore (dec logits ((pred_instances.map fun b => b.pred_boxes).flatten)))
      (pred_instances.map fun i => i.pred_boxes.length)).length := by
    rw [hchunks_len]; exact hi
  have hchunk :
      (splitSizes (selectXYScore (dec logits ((pred_instances.map fun b => b.pred_boxes).flatten)))
          (pred_instances.map fun i => i.pred_boxes.length)).getD i []
        = ((selectXYScore (dec logits ((pred_instances.map fun b => b.pred_boxes).flatten))).drop
            (((pred_instances.map fun i => i.pred_boxes.length).take i).sum)).take
          ((pred_instances.getD i default).pred_boxes.length) := by
    rw [splitSizes_getD _ _ i hic, hcnt]
  have hout : (keypoint_rcnn_inference dec logits pred_instances).getD i default
      = { pred_instances.getD i default with
          pred_keypoints := some ((splitSizes
              (selectXYScore (dec logits ((pred_instances.map fun b => b.pred_boxes).flatten)))
              (pred_instances.map fun i => i.pred_boxes.length)).getD i []) } := by
    simp only [keypoint_rcnn_inference]
    rw [List.getD_eq_getElem _ _ (by rw [← hlen] at hi; simpa [keypoint_rcnn_inference] using hi),
      List.getElem_map, List.getElem_zip, List.getD_eq_getElem _ _ hi,
      List.getD_eq_getElem _ _ hichunks]
  rw [hout, hchunk]
  refine ⟨rfl, rfl, rfl, ?_⟩
  have hdrop_len :
      (((selectXYScore (dec logits ((pred_instances.map fun b => b.pred_boxes).flatten))).drop
          (((pred_instances.map fun i => i.pred_boxes.length).take i).sum)).length)
        = (pred_instances.map fun i => i.pred_boxes.length).sum
          - ((pred_instances.map fun i => i.pred_boxes.length).take i).sum := by
    rw [List.length_drop, hsel_len]
  have hsplit := List.sum_take_add_sum_drop (pred_instances.map fun i => i.pred_boxes.length) i
  have hdropc := List.drop_eq_getElem_cons hic
  have hgetd : (pred_instances.map fun i => i.pred_boxes.length).getD i 0
      = (pred_instances.map fun i => i.pred_boxes.length)[i] :=
    List.getD_eq_getElem _ _ hic
  rw [hdropc] at hsplit
  rw [List.sum_cons] at hsplit
  simp only [Option.getD_some, List.length_take, hdrop_len]
  rw [← hcnt, hgetd]
  omega

/-- Witness for C4 at three images with instance counts `[1, 0, 2]`. -/
theorem C4_witness :
    (keypoint_rcnn_inference (fun _ bs => bs.map fun _ => [(0, 0, 0, 0)])
        (fun _ _ _ _ => 0)
        [⟨[(0, 0, 1, 1)], [("score", 1)], none⟩, ⟨[], [], none⟩,
         ⟨[(0, 0, 1, 1), (0, 0, 2, 2)], [], none⟩]).length = 3
    ∧ ((keypoint_rcnn_inference (fun _ bs => bs.map fun _ => [(0, 0, 0, 0)])
        (fun _ _ _ _ => 0)
        [⟨[(0, 0, 1, 1)], [("score", 1)], none⟩, ⟨[], [], none⟩,
         ⟨[(0, 0, 1, 1), (0, 0, 2, 2)], [], none⟩]).getD 2 default).pred_keypoints
      = some (((selectXYScore ((fun (_ : Logits4) (bs : List (ℚ × ℚ × ℚ × ℚ)) =>
            bs.map fun _ => [((0 : ℚ), (0 : ℚ), (0 : ℚ), (0 : ℚ))])
          (fun _ _ _ _ => 0)
          (([⟨[(0, 0, 1, 1)], [("score", 1)], none⟩, ⟨[], [], none⟩,
             (⟨[(0, 0, 1, 1), (0, 0, 2, 2)], [], none⟩ : PredInstancesI)].map
            fun b => b.pred_boxes).flatten))).drop 1).take 2) := by
  have h := C4_inference_split (fun _ bs => bs.map fun _ => [(0, 0, 0, 0)])
    (fun _ _ _ _ => 0)
    [⟨[(0, 0, 1, 1)], [("score", 1)], none⟩, ⟨[], [], none⟩,
     ⟨[(0, 0, 1, 1), (0, 0, 2, 2)], [], none⟩] rfl
  exact ⟨h.1, (h.2 2 (by decide)).2.2.1⟩

/-- C5: constructing the spatial attention gate raises for EVERY kernel size: the
assert rejects sizes outside `{3, 7}`, and for the valid sizes 3 and 7 the
`weight_init.c2_msra_fill` call raises NameError because `weight_init` is never
imported in the module — contradicting the documented contract that construction
succeeds for kernel sizes 3 and 7. -/
theorem C5_construction_raises :
    SpatialAttention.init 3 = .error (.nameError "weight_init")
    ∧ SpatialAttention.init 7 = .error (.nameError "weight_init")
    ∧ SpatialAttention.init 5 = .error (.assertionError "kernel size must be 3 or 7") :=
  ⟨rfl, rfl, rfl⟩

/-- C6 counterexample: with a configuration whose attention-gate kernel-size field is
7, the constructed head's gate convolution still has kernel size 3 — the configured
value is not consumed. -/
theorem C6_counterexample :
    ¬ ((KRCNNConvDeconvUpsampleHead.initFields ⟨[8], 17, 7⟩ ⟨256⟩).spatialAtt.conv.k
      = (⟨[8], 17, 7⟩ : KRCNNHeadCfg).kernel_size) := by
  decide

/-- C6 amended: the head always constructs its attention gate with the default kernel
size 3 (padding 1) and consumes no kernel-size configuration field; within
`SpatialAttention` itself the kernel size is a constructor parameter restricted to
`{3, 7}` whose convolution uses the matching zero-centered padding (1 for 3, 3 for
7). -/
theorem C6_amended_default_kernel (cfg : KRCNNHeadCfg) (ish : KptShapeSpec) (k : ℕ)
    (hk : k = 3 ∨ k = 7) :
    (KRCNNConvDeconvUpsampleHead.initFields cfg ish).spatialAtt = ⟨⟨2, 1, 3, 1, 1⟩⟩
    ∧ SpatialAttention.initFields 3
        = .ok ((KRCNNConvDeconvUpsampleHead.initFields cfg ish).spatialAtt)
    ∧ SpatialAttention.initFields k = .ok ⟨⟨2, 1, k, 1, if k = 7 then 3 else 1⟩⟩ := by
  refine ⟨rfl, rfl, ?_⟩
  rw [SpatialAttention.initFields, if_pos hk]

/-- Witness for the amended C6 at a configuration requesting kernel size 7. -/
theorem C6_amended_witness :
    (KRCNNConvDeconvUpsampleHead.initFields ⟨[], 1, 7⟩ ⟨3⟩).spatialAtt = ⟨⟨2, 1, 3, 1, 1⟩⟩
    ∧ SpatialAttention.initFields 3
        = .ok ((KRCNNConvDeconvUpsampleHead.initFields ⟨[], 1, 7⟩ ⟨3⟩).spatialAtt)
    ∧ SpatialAttention.initFields 7 = .ok ⟨⟨2, 1, 7, 1, if 7 = 7 then 3 else 1⟩⟩ :=
  C6_amended_default_kernel ⟨[], 1, 7⟩ ⟨3⟩ 7 (Or.inr rfl)

/-- C7: across any sequence of loss invocations in one process, the skip counter gains
exactly the number of degenerate batches, never decreases, and each degenerate
invocation appends exactly one report of the new counter value under the fixed
diagnostic name, while non-degenerate invocations leave the counter and the event
storage untouched. -/
theorem C7_skip_counter (ce : CrossEntropyFn) (enc : Encoder)
    (batches : List KptLossBatch) (st : LossState) :
    runLossBatches ce enc batches st =
      ⟨st.totalSkipped + (batches.filter fun b => lossDegenerate enc b.S b.instances).length,
       st.events ++ skipTrace st.totalSkipped
         ((batches.filter fun b => lossDegenerate enc b.S b.instances).length)⟩
    ∧ st.totalSkipped ≤ (runLossBatches ce enc batches st).totalSkipped
    ∧ ∀ (b : KptLossBatch) (st0 : LossState),
        (lossDegenerate enc b.S b.instances = true →
          (keypoint_rcnn_loss ce enc b.N b.K b.S b.logits b.instances b.normalizer st0).1 =
            ⟨st0.totalSkipped + 1,
             st0.events ++ [("kpts_num_skipped_batches", st0.totalSkipped + 1)]⟩)
        ∧ (lossDegenerate enc b.S b.instances = false →
          (keypoint_rcnn_loss ce enc b.N b.K b.S b.logits b.instances b.normalizer st0).1
            = st0) := by
  refine ⟨runLossBatches_eq ce enc batches st, ?_,
    fun b st0 => ⟨fun hd => ?_, fun hd => ?_⟩⟩
  · rw [runLossBatches_eq]
    exact Nat.le_add_right _ _
  · rw [keypoint_rcnn_loss_fst, if_pos hd]
  · rw [keypoint_rcnn_loss_fst, if_neg (by simp [hd])]

/-- Witness for C7: one degenerate batch from a fresh state sets the counter to 1 and
reports it once. -/
theorem C7_witness :
    runLossBatches (fun _ _ => 0) (fun _ _ => ([], []))
        [⟨1, 1, 1, fun _ _ _ _ => 0, [[]], none⟩] ⟨0, []⟩
      = ⟨1, [("kpts_num_skipped_batches", 1)]⟩
    ∧ (keypoint_rcnn_loss (fun _ _ => 0) (fun _ _ => ([], [])) 1 1 1
        (fun _ _ _ _ => 0) [[]] none ⟨0, []⟩).1
      = ⟨1, [("kpts_num_skipped_batches", 1)]⟩ :=
  ⟨(C7_skip_counter (fun _ _ => 0) (fun _ _ => ([], []))
      [⟨1, 1, 1, fun _ _ _ _ => 0, [[]], none⟩] ⟨0, []⟩).1,
   ((C7_skip_counter (fun _ _ => 0) (fun _ _ => ([], []))
      [⟨1, 1, 1, fun _ _ _ _ => 0, [[]], none⟩] ⟨0, []⟩).2.2
      ⟨1, 1, 1, fun _ _ _ _ => 0, [[]], none⟩ ⟨0, []⟩).1 rfl⟩

/-- C8: on a zero-instance input `(0, C, H, W)` the attention gate does not raise and
returns the shape `(0, C, H, W)`; its channel-max step takes the empty-tensor branch,
producing shape `(0, 1, H, W)`, where the raw reduction itself would error. -/
theorem C8_empty_batch_gate (k : ℕ) (g : SpatialAttentionFields) (C H W : ℕ)
    (hg : SpatialAttention.initFields k = .ok g) (hH : 1 ≤ H) (hW : 1 ≤ W) :
    SpatialAttention.forward g ⟨0, C, H, W⟩ = .ok ⟨0, C, H, W⟩
    ∧ SAM.Max ⟨0, C, H, W⟩ = .ok ⟨0, 1, H, W⟩
    ∧ torchMaxDim1 ⟨0, C, H, W⟩ = .error "max(): cannot reduce an empty tensor" := by
  have hk : (k = 3 ∨ k = 7) ∧ g = ⟨⟨2, 1, k, 1, if k = 7 then 3 else 1⟩⟩ := by
    rw [SpatialAttention.initFields] at hg
    by_cases h : k = 3 ∨ k = 7
    · rw [if_pos h] at hg
      exact ⟨h, (Except.ok.inj hg).symm⟩
    · rw [if_neg h] at hg
      exact absurd hg (by simp)
  obtain ⟨hk37, rfl⟩ := hk
  refine ⟨?_, SAM_Max_ok ⟨0, C, H, W⟩, ?_⟩
  · rcases hk37 with rfl | rfl
    · exact SpatialAttention_forward_ok 3 1 0 C H W rfl hH hW
    · exact SpatialAttention_forward_ok 7 3 0 C H W rfl hH hW
  · rw [torchMaxDim1, if_pos (by simp)]

/-- Witness for C8 with the default kernel size 3 on a `(0, 2, 1, 1)` input. -/
theorem C8_witness :
    SpatialAttention.forward ⟨⟨2, 1, 3, 1, 1⟩⟩ ⟨0, 2, 1, 1⟩ = .ok ⟨0, 2, 1, 1⟩
    ∧ SAM.Max ⟨0, 2, 1, 1⟩ = .ok ⟨0, 1, 1, 1⟩
    ∧ torchMaxDim1 ⟨0, 2, 1, 1⟩ = .error "max(): cannot reduce an empty tensor" :=
  C8_empty_batch_gate 3 ⟨⟨2, 1, 3, 1, 1⟩⟩ 2 1 1 rfl (by decide) (by decide)

/-- C9: the constructed head's conv blocks are all 3×3 stride-1 padding-1, its
transposed convolution has kernel 4, stride 2, padding 1 and `num_keypoints` output
channels, its upsample factor is 2, and `layers` maps an `(R, C_in, H, W)` input to an
`(R, K, 4H, 4W)` output. -/
theorem C9_head_output_shape (cfg : KRCNNHeadCfg) (ish : KptShapeSpec) (R H W : ℕ)
    (hH : 1 ≤ H) (hW : 1 ≤ W) :
    (∀ m ∈ (KRCNNConvDeconvUpsampleHead.initFields cfg ish).blocks,
      m.k = 3 ∧ m.stride = 1 ∧ m.pad = 1)
    ∧ (KRCNNConvDeconvUpsampleHead.initFields cfg ish).score_lowres
        = ⟨lastChannels ish.channels cfg.conv_dims, cfg.num_keypoints, 4, 2, 1⟩
    ∧ (KRCNNConvDeconvUpsampleHead.initFields cfg ish).up_scale = 2
    ∧ KRCNNConvDeconvUpsampleHead.layers (KRCNNConvDeconvUpsampleHead.initFields cfg ish)
        ⟨R, ish.channels, H, W⟩ = .ok ⟨R, cfg.num_keypoints, 4 * H, 4 * W⟩ :=
  ⟨buildConvBlocks_params ish.channels cfg.conv_dims, rfl, rfl,
   head_layers_shape cfg ish R H W hH hW⟩

/-- Witness for C9 at a one-conv head on a `(1, 5, 1, 1)` input. -/
theorem C9_witness :
    (∀ m ∈ (KRCNNConvDeconvUpsampleHead.initFields ⟨[4], 2, 3⟩ ⟨5⟩).blocks,
      m.k = 3 ∧ m.stride = 1 ∧ m.pad = 1)
    ∧ (KRCNNConvDeconvUpsampleHead.initFields ⟨[4], 2, 3⟩ ⟨5⟩).score_lowres
        = ⟨lastChannels 5 [4], 2, 4, 2, 1⟩
    ∧ (KRCNNConvDeconvUpsampleHead.initFields ⟨[4], 2, 3⟩ ⟨5⟩).up_scale = 2
    ∧ KRCNNConvDeconvUpsampleHead.layers (KRCNNConvDeconvUpsampleHead.initFields ⟨[4], 2, 3⟩ ⟨5⟩)
        ⟨1, 5, 1, 1⟩ = .ok ⟨1, 2, 4 * 1, 4 * 1⟩ :=
  C9_head_output_shape ⟨[4], 2, 3⟩ ⟨5⟩ 1 1 1 (by decide) (by decide)

/-- C10: one loss invocation reads but never writes the logits tensor, the shape
metadata and the per-image annotations, and its only state change is the skip-counter
increment plus the one metrics report, taken exactly on the degenerate path. -/
theorem C10_loss_frame (ce : CrossEntropyFn) (enc : Encoder) (normalizer : Option ℚ)
    (w : LossWorld) :
    (keypoint_rcnn_loss_world ce enc normalizer w).1.N = w.N
    ∧ (keypoint_rcnn_loss_world ce enc normalizer w).1.K = w.K
    ∧ (keypoint_rcnn_loss_world ce enc normalizer w).1.S = w.S
    ∧ (keypoint_rcnn_loss_world ce enc normalizer w).1.logits = w.logits
    ∧ (keypoint_rcnn_loss_world ce enc normalizer w).1.instances = w.instances
    ∧ (lossDegenerate enc w.S w.instances = false →
        (keypoint_rcnn_loss_world ce enc normalizer w).1.state = w.state)
    ∧ (lossDegenerate enc w.S w.instances = true →
        (keypoint_rcnn_loss_world ce enc normalizer w).1.state =
          ⟨w.state.totalSkipped + 1,
           w.state.events ++ [("kpts_num_skipped_batches", w.state.totalSkipped + 1)]⟩) := by
  refine ⟨rfl, rfl, rfl, rfl, rfl, fun h => ?_, fun h => ?_⟩
  · show (keypoint_rcnn_loss ce enc w.N w.K w.S w.logits w.instances normalizer w.state).1
      = w.state
    rw [keypoint_rcnn_loss_fst, if_neg (by simp [h])]
  · show (keypoint_rcnn_loss ce enc w.N w.K w.S w.logits w.instances normalizer w.state).1
      = ⟨w.state.totalSkipped + 1,
         w.state.events ++ [("kpts_num_skipped_batches", w.state.totalSkipped + 1)]⟩
    rw [keypoint_rcnn_loss_fst, if_pos h]

/-- Witness for C10 at a concrete degenerate world. -/
theorem C10_witness :
    (keypoint_rcnn_loss_world (fun _ _ => 0) (fun _ _ => ([], [])) none
        ⟨1, 1, 1, fun _ _ _ _ => 0, [[]], ⟨0, []⟩⟩).1.instances = [[]]
    ∧ (keypoint_rcnn_loss_world (fun _ _ => 0) (fun _ _ => ([], [])) none
        ⟨1, 1, 1, fun _ _ _ _ => 0, [[]], ⟨0, []⟩⟩).1.state
      = ⟨1, [("kpts_num_skipped_batches", 1)]⟩ :=
  ⟨(C10_loss_frame (fun _ _ => 0) (fun _ _ => ([], [])) none
      ⟨1, 1, 1, fun _ _ _ _ => 0, [[]], ⟨0, []⟩⟩).2.2.2.2.1,
   (C10_loss_frame (fun _ _ => 0) (fun _ _ => ([], [])) none
      ⟨1, 1, 1, fun _ _ _ _ => 0, [[]], ⟨0, []⟩⟩).2.2.2.2.2.2 rfl⟩
